import Mathlib

/-!
Verification of the campaign grading and analysis pipeline
(`src/campaign_Analyzer.py`) against its natural-language specification.

Modelling conventions:
* A pandas cell of a numeric column is `Option ℚ`, with `none` standing for
  NaN (a missing value) and `some q` for the exact rational value of the
  float.  Arithmetic on cells propagates `none` the way IEEE NaN propagates.
* `round2q` models `.round(2)` (two-decimal rounding).  NumPy rounds
  half-to-even on binary floats; the model rounds half-up on rationals.  The
  two agree except on exact half-cent ties, which none of the checked
  statements depend on.
* pandas `Series.rank(method="min", na_option="bottom")` assigns to a
  present value `1 +` the number of strictly better present values, and to a
  missing value `1 +` the number of present values (missing sorts to the
  bottom, i.e. worst).
-/

/-- One row of the uploaded table: the five required columns.  Numeric cells
are `Option ℚ` (`none` = NaN). -/
structure Row where
  campaign : String
  totalSpend : Option ℚ
  totalLeads : Option ℚ
  totalSales : Option ℚ
  revenue : Option ℚ
deriving DecidableEq, Repr

/-- Half-up rounding of a rational to two decimal places, modelling
`.round(2)` on the underlying float value. -/
def round2q (x : ℚ) : ℚ := ((⌊100 * x + 1/2⌋ : ℤ) : ℚ) / 100

/-- Rounding `.round(2)` on a cell: NaN stays NaN. -/
def round2 : Option ℚ → Option ℚ := Option.map round2q

/-- Cell subtraction with NaN propagation (pandas `-`). -/
def nsub : Option ℚ → Option ℚ → Option ℚ
  | some a, some b => some (a - b)
  | _, _ => none

/-- Cell division with NaN propagation (pandas `/`, numpy `divide`); only
ever used by the pipeline under a nonzero-denominator guard. -/
def ndiv : Option ℚ → Option ℚ → Option ℚ
  | some a, some b => some (a / b)
  | _, _ => none

/-- The condition `s.notna() & (s != 0)` of the `np.where` guards. -/
def notnaNZ : Option ℚ → Bool
  | some v => decide (v ≠ 0)
  | none => false

/-- The condition `s > 0` (NaN compares false, as in numpy). -/
def gtZeroB : Option ℚ → Bool
  | some v => decide (0 < v)
  | none => false

/-- The `where=` mask `s != 0` of the `np.divide` calls: in numpy
`nan != 0` is `True`, so `none` passes the mask. -/
def neZeroMask : Option ℚ → Bool
  | some v => decide (v ≠ 0)
  | none => true

/-- Source line `df["P/L"] = (df["Revenue (incl. GST)"] - df["Total Spend"]).round(2)` -/
def pl (r : Row) : Option ℚ := round2 (nsub r.revenue r.totalSpend)

/-- Source line `df["CPL"] = np.where(leads.notna() & (leads != 0),
(spend / leads).round(2), spend)` -/
def cpl (r : Row) : Option ℚ :=
  if notnaNZ r.totalLeads then round2 (ndiv r.totalSpend r.totalLeads)
  else r.totalSpend

/-- Source line `df["CPA"] = np.where(sales.notna() & (sales != 0),
(spend / sales).round(2), spend)` -/
def cpa (r : Row) : Option ℚ :=
  if notnaNZ r.totalSales then round2 (ndiv r.totalSpend r.totalSales)
  else r.totalSpend

/-- Source line `df["ROAS"] = np.where(spend.notna() & (spend != 0),
(revenue / spend).round(2), np.where(revenue > 0, 99.0, 0.0))` -/
def roas (r : Row) : Option ℚ :=
  if notnaNZ r.totalSpend then round2 (ndiv r.revenue r.totalSpend)
  else if gtZeroB r.revenue then some 99 else some 0

/-- Source line `df["ROI"] = np.where(spend.notna() & (spend != 0),
(pl / spend).round(2), np.where(revenue > 0, 99.0, 0.0))`, where `pl` is the
already-rounded `P/L` column. -/
def roi (r : Row) : Option ℚ :=
  if notnaNZ r.totalSpend then round2 (ndiv (pl r) r.totalSpend)
  else if gtZeroB r.revenue then some 99 else some 0

/-- Source line `df["C-rate"] = np.divide(sales, leads, where=leads!=0,
out=full(nan)).round(2)`: outside the mask the NaN of the `out` array
survives; inside the mask NaN operands propagate. -/
def crate (r : Row) : Option ℚ :=
  if neZeroMask r.totalLeads then round2 (ndiv r.totalSales r.totalLeads)
  else none

/-- Source line `df["Rev. per lead"] = np.divide(revenue, leads, where=leads!=0,
out=full(nan)).round(2)` -/
def revPerLead (r : Row) : Option ℚ :=
  if neZeroMask r.totalLeads then round2 (ndiv r.revenue r.totalLeads)
  else none

/-- The four metrics entering the weighted ranking (the keys of the
`weights` dict). -/
inductive Metric
  | roiM
  | revenueM
  | cplM
  | leadsM
deriving DecidableEq, Repr

/-- The source dict `weights`: ROI 40, Revenue (incl. GST) 30, CPL 18,
Total Leads 12. -/
def weights : List (Metric × ℕ) :=
  [(.roiM, 40), (.revenueM, 30), (.cplM, 18), (.leadsM, 12)]

/-- The source set `positive_metrics`: ROI, Revenue (incl. GST), Total Leads
(higher is better); the remaining metric CPL is negative (lower is
better). -/
def positiveMetrics : List Metric := [.roiM, .revenueM, .leadsM]

/-- The value of column `m` at row `r` (`df[col]` for the four ranked
columns). -/
def metricValue : Metric → Row → Option ℚ
  | .roiM, r => roi r
  | .revenueM, r => r.revenue
  | .cplM, r => cpl r
  | .leadsM, r => r.totalLeads

/-- The full column `df[col]` for a ranked metric. -/
def column (df : List Row) (m : Metric) : List (Option ℚ) :=
  df.map (metricValue m)

/-- Tests whether a cell holds a present value strictly below `v` (NaN fails). -/
def belowB (v : ℚ) : Option ℚ → Bool
  | some u => decide (u < v)
  | none => false

/-- Tests whether a cell holds a present value strictly above `v` (NaN fails). -/
def aboveB (v : ℚ) : Option ℚ → Bool
  | some u => decide (v < u)
  | none => false

/-- Rank `Series.rank(ascending=True, method="min", na_option="bottom")` of the
value `x` within the column `xs`: a present value gets `1 +` the number of
strictly smaller present values; NaN is sent to the bottom, ranking after
every present value. -/
def rankAsc (xs : List (Option ℚ)) : Option ℚ → ℕ
  | some v => xs.countP (belowB v) + 1
  | none => xs.countP (fun y => y.isSome) + 1

/-- Rank `Series.rank(ascending=False, method="min", na_option="bottom")` of the
value `x` within the column `xs`. -/
def rankDesc (xs : List (Option ℚ)) : Option ℚ → ℕ
  | some v => xs.countP (aboveB v) + 1
  | none => xs.countP (fun y => y.isSome) + 1

/-- The rank of value `x` in metric `m`: `df[col].rank(ascending=False, …)`
for positive metrics, `df[col].rank(ascending=True, …)` for the negative
metric CPL. -/
def metricRank (df : List Row) (m : Metric) (x : Option ℚ) : ℕ :=
  if m ∈ positiveMetrics then rankDesc (column df m) x
  else rankAsc (column df m) x

/-- Source expression `df[col].rank(…).iloc[idx]`: the rank of row `idx` in metric `m`. -/
def metricRankAt (df : List Row) (m : Metric) (idx : ℕ) : ℕ :=
  metricRank df m ((column df m).getD idx none)

/-- The `total_scores` loop of the source: for every row index, the full
column rank is recomputed for each weighted metric and
`total += rank * w` accumulated. -/
def totalScoresLoop (df : List Row) : List ℕ :=
  (List.range df.length).map (fun idx =>
    weights.foldl (fun total mw => total + metricRankAt df mw.1 idx * mw.2) 0)

/-- Column `df["Campaign Score Raw"]` as exact rationals. -/
def rawScores (df : List Row) : List ℚ :=
  List.map (fun n : ℕ => (n : ℚ)) (totalScoresLoop df)

/-- Minimum `Series.min()` of a nonempty list (junk value 0 on the empty list,
never used by the pipeline on empty input). -/
def listMin : List ℚ → ℚ
  | [] => 0
  | x :: xs => xs.foldl min x

/-- Maximum `Series.max()` of a nonempty list. -/
def listMax : List ℚ → ℚ
  | [] => 0
  | x :: xs => xs.foldl max x

/-- Tolerance test `np.isclose(a, b)` with the default tolerances
`rtol = 1e-5`, `atol = 1e-8`. -/
def npIsClose (a b : ℚ) : Bool :=
  decide (|a - b| ≤ 1/100000000 + |b| / 100000)

/-- Column `df["Campaign Score (0–100)"]`: `100.0` for every row when
`np.isclose(raw_max, raw_min)`, otherwise
`(raw_max - raw) / (raw_max - raw_min) * 100`. -/
def campaignScores (df : List Row) : List ℚ :=
  let raws := rawScores df
  let rmin := listMin raws
  let rmax := listMax raws
  if npIsClose rmax rmin then raws.map (fun _ => 100)
  else raws.map (fun t => (rmax - t) / (rmax - rmin) * 100)

/-- Row A of the spec's end-to-end example. -/
def rowA : Row :=
  { campaign := "A", totalSpend := some 1000, totalLeads := some 10,
    totalSales := some 2, revenue := some 2000 }

/-- Row B of the spec's end-to-end example. -/
def rowB : Row :=
  { campaign := "B", totalSpend := some 500, totalLeads := some 0,
    totalSales := some 0, revenue := some 0 }

/-- The two-row example dataset. -/
def dfAB : List Row := [rowA, rowB]


/-- The spec's proposed reimplementation of the scoring loop: one rank
sequence per metric over the whole column, computed first, then combined
per row with the weights. -/
def rankSeries (df : List Row) (m : Metric) : List ℕ :=
  (column df m).map (metricRank df m)

/-- Weighted raw scores via precomputed per-metric rank sequences (the
refinement target of the spec's design note). -/
def totalScoresPre (df : List Row) : List ℕ :=
  let series := weights.map (fun mw => (rankSeries df mw.1, mw.2))
  (List.range df.length).map (fun idx =>
    series.foldl (fun total sw => total + sw.1.getD idx 0 * sw.2) 0)

/-- An order on row indices: strictly larger score first, equal scores in
index order.  CAUTION on fidelity: the source's
`df.sort_values("Campaign Score (0–100)", ascending=False)` uses the
default `kind="quicksort"` (numpy introsort), which pandas documents as NOT
stable; its tie order coincides with this relation only when the
underlying argsort happens to be stable (numpy's small-array
insertion-sort regime).  The relation is therefore a deterministic
stand-in for an order the program leaves unspecified on ties, not a
faithful embedding of it; no theorem about tie order is derived from
it. -/
def scoreOrder (s : List ℚ) (i j : ℕ) : Prop :=
  s.getD j 0 < s.getD i 0 ∨ (s.getD i 0 = s.getD j 0 ∧ i ≤ j)

instance (s : List ℚ) : DecidableRel (scoreOrder s) := fun _i _j =>
  inferInstanceAs (Decidable (_ ∨ _))

/-- A deterministic stand-in for the permutation of row indices produced by
the descending score sort (see the fidelity caution on `scoreOrder`: the
source's default quicksort kind guarantees the descending order of scores
but not any particular tie order).  Used only as the payload of the
guarded pipeline `analyzeUpload`, whose validation behavior does not
depend on it. -/
def sortIndicesDesc (s : List ℚ) : List ℕ :=
  List.insertionSort (scoreOrder s) (List.range s.length)

/-- List `required_cols` of the source. -/
def requiredCols : List String :=
  ["Campaign", "Total Spend", "Total Leads", "Total Sales",
   "Revenue (incl. GST)"]

/-- Source line `missing = [c for c in required_cols if c not in df.columns]` -/
def missingCols (cols : List String) : List String :=
  requiredCols.filter (fun c => ¬ cols.contains c)

/-- The guarded pipeline: `if missing: st.error(f"Missing columns …")` and
no table is produced; `else` the scored, sorted output is built.  The
result of the `else` branch is the scored table as the pair of the sorted
row order and the score column. -/
def analyzeUpload (cols : List String) (df : List Row) :
    Except (List String) (List ℕ × List ℚ) :=
  if missingCols cols = [] then
    .ok (sortIndicesDesc (campaignScores df), campaignScores df)
  else .error (missingCols cols)

/-- pandas column assignment `df[c] = …`: appends a new column name, or
overwrites in place when the name already exists. -/
def assignColumn (cols : List String) (c : String) : List String :=
  if cols.contains c then cols else cols ++ [c]

/-- The seven derived metric columns in the order the source assigns
them. -/
def derivedOrder : List String :=
  ["P/L", "CPL", "CPA", "ROAS", "ROI", "C-rate", "Rev. per lead"]

/-- All columns the pipeline assigns, in source order: the seven derived
metrics, the internal working column, then the final score. -/
def assignedOrder : List String :=
  derivedOrder ++ ["Campaign Score Raw", "Campaign Score (0–100)"]

/-- The column list of `df_sorted` as exposed to `st.dataframe` and
`to_csv`: every assignment applied to the uploaded columns, then
`drop(columns=["Campaign Score Raw"])` (pandas `drop` removes the named
column; modelled as `List.erase`, removing the first occurrence). -/
def pipelineColumns (input : List String) : List String :=
  (assignedOrder.foldl assignColumn input).erase ("Campaign Score Raw")

/-- The dtype of a numpy array/pandas column, as far as the pipeline's
behavior depends on it. -/
inductive NpDtype
  | int64
  | float64
deriving DecidableEq, Repr

/-- Call `np.divide(num, den, where=den!=0, out=np.full_like(col, np.nan))`,
elementwise with the rounding applied afterwards.  Models numpy ufunc
semantics: `np.full_like` inherits the dtype of `col`, and `true_divide`
only has floating-point output loops, so under the default `same_kind`
casting rule an integer-typed `out` array is rejected with a
`UFuncTypeError` before any element is computed; a float-typed `out` array
keeps its NaN wherever the mask fails. -/
def npDivideWhereInto (outDtype : NpDtype) (num den : List (Option ℚ)) :
    Except String (List (Option ℚ)) :=
  match outDtype with
  | .int64 =>
      .error ("UFuncTypeError: cannot cast true_divide output from " ++
        "float64 to int64 with same_kind casting")
  | .float64 =>
      .ok ((num.zip den).map (fun p =>
        if neZeroMask p.2 then round2 (ndiv p.1 p.2) else none))

/-- The `df["C-rate"]` line as actually executed, parametrized by the dtype
of the `Total Sales` column (which `np.full_like` copies into the `out`
array). -/
def crateColumn (salesDtype : NpDtype) (df : List Row) :
    Except String (List (Option ℚ)) :=
  npDivideWhereInto salesDtype (df.map (fun r => r.totalSales))
    (df.map (fun r => r.totalLeads))

/-- A row with zero spend and positive revenue, exercising the sentinel
branch of ROAS/ROI. -/
def rowZeroSpend : Row :=
  { campaign := "Z", totalSpend := some 0, totalLeads := some 4,
    totalSales := some 1, revenue := some 5 }

theorem round2q_eq_self (x : ℚ) (m : ℤ) (h : 100 * x = (m : ℚ)) :
    round2q x = x := by
  have hfl : ⌊100 * x + 1/2⌋ = m := by
    rw [h, Int.floor_eq_iff]
    constructor
    · linarith
    · linarith
  unfold round2q
  rw [hfl]
  rw [eq_comm, eq_div_iff (by norm_num : (100 : ℚ) ≠ 0)]
  linarith [h]

theorem foldl_min_le_init (xs : List ℚ) : ∀ x : ℚ, xs.foldl min x ≤ x := by
  induction xs with
  | nil => simp
  | cons a t ih =>
    intro x
    exact le_trans (ih (min x a)) (min_le_left x a)

theorem foldl_min_le_mem (xs : List ℚ) :
    ∀ (x y : ℚ), y ∈ xs → xs.foldl min x ≤ y := by
  induction xs with
  | nil => simp
  | cons a t ih =>
    intro x y hy
    rcases List.mem_cons.mp hy with h | h
    · subst h
      exact le_trans (foldl_min_le_init t (min x y)) (min_le_right x y)
    · exact ih (min x a) y h

theorem foldl_min_mem (xs : List ℚ) :
    ∀ x : ℚ, xs.foldl min x = x ∨ xs.foldl min x ∈ xs := by
  induction xs with
  | nil => intro x; left; rfl
  | cons a t ih =>
    intro x
    rcases ih (min x a) with h | h
    · rw [List.foldl_cons, h]
      rcases min_choice x a with h' | h'
      · left; exact h'
      · right; rw [h']; exact List.mem_cons_self a t
    · right; exact List.mem_cons_of_mem a h

theorem foldl_max_ge_init (xs : List ℚ) : ∀ x : ℚ, x ≤ xs.foldl max x := by
  induction xs with
  | nil => simp
  | cons a t ih =>
    intro x
    exact le_trans (le_max_left x a) (ih (max x a))

theorem foldl_max_ge_mem (xs : List ℚ) :
    ∀ (x y : ℚ), y ∈ xs → y ≤ xs.foldl max x := by
  induction xs with
  | nil => simp
  | cons a t ih =>
    intro x y hy
    rcases List.mem_cons.mp hy with h | h
    · subst h
      exact le_trans (le_max_right x y) (foldl_max_ge_init t (max x y))
    · exact ih (max x a) y h

theorem foldl_max_mem (xs : List ℚ) :
    ∀ x : ℚ, xs.foldl max x = x ∨ xs.foldl max x ∈ xs := by
  induction xs with
  | nil => intro x; left; rfl
  | cons a t ih =>
    intro x
    rcases ih (max x a) with h | h
    · rw [List.foldl_cons, h]
      rcases max_choice x a with h' | h'
      · left; exact h'
      · right; rw [h']; exact List.mem_cons_self a t
    · right; exact List.mem_cons_of_mem a h

theorem listMin_le (x : ℚ) (xs : List ℚ) (y : ℚ) (hy : y ∈ x :: xs) :
    listMin (x :: xs) ≤ y := by
  rcases List.mem_cons.mp hy with h | h
  · subst h; exact foldl_min_le_init xs y
  · exact foldl_min_le_mem xs x y h

theorem listMin_mem (x : ℚ) (xs : List ℚ) : listMin (x :: xs) ∈ x :: xs := by
  rcases foldl_min_mem xs x with h | h
  · rw [listMin, h]; exact List.mem_cons_self x xs
  · exact List.mem_cons_of_mem x h

theorem listMax_ge (x : ℚ) (xs : List ℚ) (y : ℚ) (hy : y ∈ x :: xs) :
    y ≤ listMax (x :: xs) := by
  rcases List.mem_cons.mp hy with h | h
  · subst h; exact foldl_max_ge_init xs y
  · exact foldl_max_ge_mem xs x y h

theorem listMax_mem (x : ℚ) (xs : List ℚ) : listMax (x :: xs) ∈ x :: xs := by
  rcases foldl_max_mem xs x with h | h
  · rw [listMax, h]; exact List.mem_cons_self x xs
  · exact List.mem_cons_of_mem x h

theorem mem_zip_map (f : ℚ → ℚ) :
    ∀ (l : List ℚ) (x : ℚ), x ∈ l → (x, f x) ∈ l.zip (l.map f) := by
  intro l
  induction l with
  | nil => simp
  | cons a t ih =>
    intro x hx
    rcases List.mem_cons.mp hx with h | h
    · subst h
      simp [List.zip_cons_cons]
    · exact List.mem_cons_of_mem (a, f a) (ih x h)

theorem countP_below_split (v w : ℚ) (hvw : v < w) :
    ∀ xs : List (Option ℚ), (∀ u : ℚ, some u ∈ xs → ¬(v < u ∧ u < w)) →
      xs.countP (belowB w)
        = xs.countP (belowB v) + xs.countP (fun y => decide (y = some v)) := by
  intro xs
  induction xs with
  | nil => intro _; simp
  | cons y t ih =>
    intro hno
    have ht := ih (fun u hu => hno u (List.mem_cons_of_mem y hu))
    cases y with
    | none => simp [List.countP_cons, belowB, ht]
    | some u =>
      have hu : ¬(v < u ∧ u < w) := hno u (List.mem_cons_self _ t)
      rcases lt_trichotomy u v with h | h | h
      · have e1 : belowB w (some u) = true := by
          simp [belowB]; exact lt_trans h hvw
        have e2 : belowB v (some u) = true := by simp [belowB]; exact h
        simp [List.countP_cons, e1, e2, ht, ne_of_lt h]
        omega
      · have e1 : belowB w (some u) = true := by
          simp [belowB]; rw [h]; exact hvw
        have e2 : belowB v (some u) = false := by
          simp [belowB]; rw [h]
        simp [List.countP_cons, e1, e2, ht]
        simp [h]
        omega
      · have hw : ¬ u < w := fun hlt => hu ⟨h, hlt⟩
        have e1 : belowB w (some u) = false := by
          simp [belowB]; exact le_of_not_lt hw
        have e2 : belowB v (some u) = false := by
          simp [belowB]; exact le_of_lt h
        simp [List.countP_cons, e1, e2, ht, ne_of_gt h]

theorem countP_above_split (v w : ℚ) (hwv : w < v) :
    ∀ xs : List (Option ℚ), (∀ u : ℚ, some u ∈ xs → ¬(w < u ∧ u < v)) →
      xs.countP (aboveB w)
        = xs.countP (aboveB v) + xs.countP (fun y => decide (y = some v)) := by
  intro xs
  induction xs with
  | nil => intro _; simp
  | cons y t ih =>
    intro hno
    have ht := ih (fun u hu => hno u (List.mem_cons_of_mem y hu))
    cases y with
    | none => simp [List.countP_cons, aboveB, ht]
    | some u =>
      have hu : ¬(w < u ∧ u < v) := hno u (List.mem_cons_self _ t)
      rcases lt_trichotomy u v with h | h | h
      · have hw : ¬ w < u := fun hlt => hu ⟨hlt, h⟩
        have e1 : aboveB w (some u) = false := by
          simp [aboveB]; exact le_of_not_lt hw
        have e2 : aboveB v (some u) = false := by
          simp [aboveB]; exact le_of_lt h
        simp [List.countP_cons, e1, e2, ht, ne_of_lt h]
      · have e1 : aboveB w (some u) = true := by
          simp [aboveB]; rw [h]; exact hwv
        have e2 : aboveB v (some u) = false := by
          simp [aboveB]; rw [h]
        simp [List.countP_cons, e1, e2, ht]
        simp [h]
        omega
      · have e1 : aboveB w (some u) = true := by
          simp [aboveB]; exact lt_trans hwv h
        have e2 : aboveB v (some u) = true := by simp [aboveB]; exact h
        simp [List.countP_cons, e1, e2, ht, ne_of_gt h]
        omega

theorem countP_lt_of_witness (p q : Option ℚ → Bool) :
    ∀ (xs : List (Option ℚ)) (x : Option ℚ), x ∈ xs →
      (∀ y ∈ xs, p y = true → q y = true) → q x = true → p x = false →
      xs.countP p < xs.countP q := by
  intro xs
  induction xs with
  | nil => simp
  | cons a t ih =>
    intro x hx himp hqx hpx
    have himp' : ∀ y ∈ t, p y = true → q y = true := fun y hy =>
      himp y (List.mem_cons_of_mem a hy)
    have hle : t.countP p ≤ t.countP q := List.countP_mono_left himp'
    rcases List.mem_cons.mp hx with h | h
    · subst h
      simp [List.countP_cons, hqx, hpx]
      omega
    · have hlt := ih x h himp' hqx hpx
      by_cases hpa : p a = true
      · have hqa := himp a (List.mem_cons_self a t) hpa
        simp [List.countP_cons, hpa, hqa]
        omega
      · have hpa' : p a = false := by
          revert hpa; cases p a <;> simp
        by_cases hqa : q a = true
        · simp [List.countP_cons, hpa', hqa]
          omega
        · have hqa' : q a = false := by
            revert hqa; cases q a <;> simp
          simp [List.countP_cons, hpa', hqa']
          omega

theorem getD_map_rank (xs : List (Option ℚ)) (f : Option ℚ → ℕ) (i : ℕ)
    (h : i < xs.length) : (xs.map f).getD i 0 = f (xs.getD i none) := by
  rw [List.getD_eq_getElem?_getD, List.getD_eq_getElem?_getD,
    List.getElem?_map, List.getElem?_eq_getElem h]
  simp

theorem pl_rowA : pl rowA = some 1000 := by
  have h : round2q 1000 = 1000 := round2q_eq_self 1000 100000 (by norm_num)
  norm_num [pl, rowA, nsub, round2, h]

theorem cpl_rowA : cpl rowA = some 100 := by
  have h : round2q 100 = 100 := round2q_eq_self 100 10000 (by norm_num)
  norm_num [cpl, rowA, notnaNZ, ndiv, round2, h]

theorem cpa_rowA : cpa rowA = some 500 := by
  have h : round2q 500 = 500 := round2q_eq_self 500 50000 (by norm_num)
  norm_num [cpa, rowA, notnaNZ, ndiv, round2, h]

theorem roas_rowA : roas rowA = some 2 := by
  have h : round2q 2 = 2 := round2q_eq_self 2 200 (by norm_num)
  norm_num [roas, rowA, notnaNZ, ndiv, round2, h]

theorem roi_rowA : roi rowA = some 1 := by
  have h : round2q 1 = 1 := round2q_eq_self 1 100 (by norm_num)
  unfold roi
  rw [pl_rowA]
  norm_num [rowA, notnaNZ, ndiv, round2, h]

theorem crate_rowA : crate rowA = some (1/5) := by
  have h : round2q (1/5) = 1/5 := round2q_eq_self (1/5) 20 (by norm_num)
  norm_num [crate, rowA, neZeroMask, ndiv, round2, h]

theorem revPerLead_rowA : revPerLead rowA = some 200 := by
  have h : round2q 200 = 200 := round2q_eq_self 200 20000 (by norm_num)
  norm_num [revPerLead, rowA, neZeroMask, ndiv, round2, h]

theorem pl_rowB : pl rowB = some (-500) := by
  have h : round2q (-500) = -500 := round2q_eq_self (-500) (-50000) (by norm_num)
  norm_num [pl, rowB, nsub, round2, h]

theorem cpl_rowB : cpl rowB = some 500 := by
  norm_num [cpl, rowB, notnaNZ]

theorem cpa_rowB : cpa rowB = some 500 := by
  norm_num [cpa, rowB, notnaNZ]

theorem roas_rowB : roas rowB = some 0 := by
  have h : round2q 0 = 0 := round2q_eq_self 0 0 (by norm_num)
  norm_num [roas, rowB, notnaNZ, ndiv, round2, h]

theorem roi_rowB : roi rowB = some (-1) := by
  have h : round2q (-1) = -1 := round2q_eq_self (-1) (-100) (by norm_num)
  unfold roi
  rw [pl_rowB]
  norm_num [rowB, notnaNZ, ndiv, round2, h]

theorem crate_rowB : crate rowB = none := by
  norm_num [crate, rowB, neZeroMask]

theorem revPerLead_rowB : revPerLead rowB = none := by
  norm_num [revPerLead, rowB, neZeroMask]

theorem column_roi_dfAB : column dfAB .roiM = [some 1, some (-1)] := by
  simp [column, dfAB, metricValue, roi_rowA, roi_rowB]

theorem column_revenue_dfAB : column dfAB .revenueM = [some 2000, some 0] := by
  simp [column, dfAB, metricValue, rowA, rowB]

theorem column_cpl_dfAB : column dfAB .cplM = [some 100, some 500] := by
  simp [column, dfAB, metricValue, cpl_rowA, cpl_rowB]

theorem column_leads_dfAB : column dfAB .leadsM = [some 10, some 0] := by
  simp [column, dfAB, metricValue, rowA, rowB]

theorem totalScoresLoop_dfAB : totalScoresLoop dfAB = [100, 200] := by
  have h2 : dfAB.length = 2 := by simp [dfAB]
  rw [totalScoresLoop, h2]
  norm_num [List.range_succ, weights, metricRankAt, metricRank, positiveMetrics,
    column_roi_dfAB, column_revenue_dfAB, column_cpl_dfAB, column_leads_dfAB,
    rankDesc, rankAsc, aboveB, belowB, List.countP_cons, List.countP_nil]
  decide

theorem rawScores_dfAB : rawScores dfAB = [100, 200] := by
  simp [rawScores, totalScoresLoop_dfAB]

theorem campaignScores_dfAB : campaignScores dfAB = [100, 0] := by
  rw [campaignScores, rawScores_dfAB]
  have hmin : listMin [(100 : ℚ), 200] = 100 := by
    norm_num [listMin, min_def]
  have hmax : listMax [(100 : ℚ), 200] = 200 := by
    norm_num [listMax, max_def]
  rw [hmin, hmax]
  have hclose : npIsClose 200 100 = false := by
    have habs : |(200 : ℚ) - 100| = 100 := by norm_num
    simp [npIsClose, habs]
    norm_num
  rw [hclose]
  norm_num

/-- C2: for every row, when Total Spend is zero or missing, ROAS and ROI are
both 99.0 if Revenue (incl. GST) > 0 and both 0.0 if Revenue == 0; when
Total Spend is a nonzero value, ROAS = round(Revenue / Spend, 2) and
ROI = round(P/L / Spend, 2). -/
theorem c2_roas_roi_policy (r : Row) :
    ((r.totalSpend = none ∨ r.totalSpend = some 0) →
      (gtZeroB r.revenue = true → roas r = some 99 ∧ roi r = some 99)
      ∧ (r.revenue = some 0 → roas r = some 0 ∧ roi r = some 0))
    ∧ (∀ s : ℚ, r.totalSpend = some s → s ≠ 0 →
      roas r = round2 (ndiv r.revenue r.totalSpend)
      ∧ roi r = round2 (ndiv (pl r) r.totalSpend)) := by
  constructor
  · intro hsp
    have hz : notnaNZ r.totalSpend = false := by
      rcases hsp with h | h <;> simp [notnaNZ, h]
    constructor
    · intro hrev
      simp [roas, roi, hz, hrev]
    · intro hrev
      have hg : gtZeroB r.revenue = false := by simp [gtZeroB, hrev]
      simp [roas, roi, hz, hg]
  · intro s hs hsne
    have hz : notnaNZ r.totalSpend = true := by simp [notnaNZ, hs, hsne]
    simp [roas, roi, hz]

theorem c2_roas_roi_policy_witness :
    roas rowZeroSpend = some 99 ∧ roi rowZeroSpend = some 99 :=
  ((c2_roas_roi_policy rowZeroSpend).1 (Or.inr rfl)).1
    (by simp [gtZeroB, rowZeroSpend])

/-- C3: for every row, CPL = round(Total Spend / Total Leads, 2) when
Total Leads > 0 and CPL = Total Spend when Total Leads is zero or missing;
symmetrically for CPA with Total Sales. -/
theorem c3_cpl_cpa_policy (r : Row) :
    (∀ l : ℚ, r.totalLeads = some l → 0 < l →
      cpl r = round2 (ndiv r.totalSpend r.totalLeads))
    ∧ ((r.totalLeads = none ∨ r.totalLeads = some 0) → cpl r = r.totalSpend)
    ∧ (∀ s : ℚ, r.totalSales = some s → 0 < s →
      cpa r = round2 (ndiv r.totalSpend r.totalSales))
    ∧ ((r.totalSales = none ∨ r.totalSales = some 0) →
      cpa r = r.totalSpend) := by
  refine ⟨?_, ?_, ?_, ?_⟩
  · intro l hl hpos
    have hz : notnaNZ r.totalLeads = true := by
      simp [notnaNZ, hl, ne_of_gt hpos]
    simp [cpl, hz]
  · intro hl
    have hz : notnaNZ r.totalLeads = false := by
      rcases hl with h | h <;> simp [notnaNZ, h]
    simp [cpl, hz]
  · intro s hs hpos
    have hz : notnaNZ r.totalSales = true := by
      simp [notnaNZ, hs, ne_of_gt hpos]
    simp [cpa, hz]
  · intro hs
    have hz : notnaNZ r.totalSales = false := by
      rcases hs with h | h <;> simp [notnaNZ, h]
    simp [cpa, hz]

theorem c3_cpl_cpa_policy_witness :
    cpl rowA = round2 (ndiv rowA.totalSpend rowA.totalLeads)
    ∧ cpl rowB = rowB.totalSpend :=
  ⟨(c3_cpl_cpa_policy rowA).1 10 rfl (by norm_num),
   (c3_cpl_cpa_policy rowB).2.1 (Or.inr rfl)⟩

/-- C4 counterexample: on the end-to-end example, row B has nonzero spend
500 and P/L −500, so the code computes ROI = round(−500/500, 2) = −1.0,
not the 0.0 the claim states. -/
theorem c4_counterexample : roi rowB = some (-1) ∧ roi rowB ≠ some 0 := by
  refine ⟨roi_rowB, ?_⟩
  rw [roi_rowB]
  simp

/-- C4 amended: on the two-row input ("A",1000,10,2,2000), ("B",500,0,0,0)
the pipeline produces for A: P/L=1000, CPL=100, CPA=500, ROAS=2.0, ROI=1.0,
C-rate=0.2, Rev. per lead=200 and score 100; and for B: P/L=−500, CPL=500,
CPA=500, ROAS=0.0, ROI=−1.0, C-rate=null, Rev. per lead=null and
score 0. -/
theorem c4_end_to_end :
    pl rowA = some 1000 ∧ cpl rowA = some 100 ∧ cpa rowA = some 500
    ∧ roas rowA = some 2 ∧ roi rowA = some 1 ∧ crate rowA = some (1/5)
    ∧ revPerLead rowA = some 200
    ∧ pl rowB = some (-500) ∧ cpl rowB = some 500 ∧ cpa rowB = some 500
    ∧ roas rowB = some 0 ∧ roi rowB = some (-1) ∧ crate rowB = none
    ∧ revPerLead rowB = none
    ∧ campaignScores dfAB = [100, 0] :=
  ⟨pl_rowA, cpl_rowA, cpa_rowA, roas_rowA, roi_rowA, crate_rowA,
   revPerLead_rowA, pl_rowB, cpl_rowB, cpa_rowB, roas_rowB, roi_rowB,
   crate_rowB, revPerLead_rowB, campaignScores_dfAB⟩

/-- C9: the C-rate line crashes on integer-typed columns.  On a dataset
whose `Total Sales` column carries an integer dtype — as `pd.read_csv`
produces for the example rows — `np.full_like` creates an int64 `out`
array and `np.divide` rejects it with a `UFuncTypeError`, so no C-rate
value is computed at all; only float-typed columns yield the specified
round(Sales/Leads, 2)-or-null column. -/
theorem c9_crate_dtype_bug :
    (∃ msg, crateColumn .int64 dfAB = .error msg)
    ∧ crateColumn .float64 dfAB = .ok [some (1/5), none]
    ∧ dfAB.map crate = [some (1/5), none] := by
  refine ⟨⟨_, rfl⟩, ?_, ?_⟩
  · have h : round2q (1/5) = 1/5 := round2q_eq_self (1/5) 20 (by norm_num)
    norm_num [crateColumn, npDivideWhereInto, dfAB, rowA, rowB, neZeroMask,
      ndiv, round2, h]
  · simp [dfAB, crate_rowA, crate_rowB]

theorem campaignScores_eq (df : List Row) :
    campaignScores df =
      if npIsClose (listMax (rawScores df)) (listMin (rawScores df))
      then (rawScores df).map (fun _ => 100)
      else (rawScores df).map (fun t =>
        (listMax (rawScores df) - t)
          / (listMax (rawScores df) - listMin (rawScores df)) * 100) := rfl

theorem rawScores_ne_nil (df : List Row) (hne : df ≠ []) :
    rawScores df ≠ [] := by
  have hlen : (rawScores df).length = df.length := by
    rw [rawScores, List.length_map, totalScoresLoop, List.length_map,
      List.length_range]
  intro h
  rw [h] at hlen
  exact hne (List.length_eq_zero.mp hlen.symm)

theorem listMin_lt_listMax_of_not_close (R : List ℚ) (hne : R ≠ [])
    (h : npIsClose (listMax R) (listMin R) = false) :
    listMin R < listMax R := by
  obtain ⟨a, l, rfl⟩ := List.exists_cons_of_ne_nil hne
  have hle : listMin (a :: l) ≤ listMax (a :: l) :=
    le_trans (listMin_le a l a (List.mem_cons_self a l))
      (listMax_ge a l a (List.mem_cons_self a l))
  rcases lt_or_eq_of_le hle with hlt | heq
  · exact hlt
  · exfalso
    have : npIsClose (listMax (a :: l)) (listMin (a :: l)) = true := by
      rw [npIsClose, decide_eq_true_eq, ← heq]
      have h0 : |listMin (a :: l) - listMin (a :: l)| = 0 := by simp
      rw [h0]
      positivity
    rw [this] at h
    simp at h

/-- C1: for every non-empty dataset, when the maximum and minimum weighted
raw scores are np.isclose every campaign's score is 100; otherwise the
scores are exactly (raw_max − raw_i)/(raw_max − raw_min)·100, a campaign
carrying the minimal raw score gets exactly 100, a campaign carrying the
maximal raw score gets exactly 0, and every score lies in [0, 100]. -/
theorem c1_score_normalization (df : List Row) (hne : df ≠ []) :
    (npIsClose (listMax (rawScores df)) (listMin (rawScores df)) = true →
      ∀ s ∈ campaignScores df, s = 100)
    ∧ (npIsClose (listMax (rawScores df)) (listMin (rawScores df)) = false →
      campaignScores df = (rawScores df).map (fun t =>
        (listMax (rawScores df) - t)
          / (listMax (rawScores df) - listMin (rawScores df)) * 100)
      ∧ (∃ p ∈ (rawScores df).zip (campaignScores df),
          p.1 = listMin (rawScores df) ∧ p.2 = 100)
      ∧ (∃ p ∈ (rawScores df).zip (campaignScores df),
          p.1 = listMax (rawScores df) ∧ p.2 = 0))
    ∧ (∀ s ∈ campaignScores df, 0 ≤ s ∧ s ≤ 100) := by
  have hRne := rawScores_ne_nil df hne
  obtain ⟨a, l, hR⟩ := List.exists_cons_of_ne_nil hRne
  refine ⟨?_, ?_, ?_⟩
  · intro hclose s hs
    rw [campaignScores_eq, hclose, if_pos rfl] at hs
    obtain ⟨t, _, rfl⟩ := List.mem_map.mp hs
    rfl
  · intro hfar
    have hlt : listMin (rawScores df) < listMax (rawScores df) :=
      listMin_lt_listMax_of_not_close _ hRne hfar
    have hden : (0 : ℚ) < listMax (rawScores df) - listMin (rawScores df) :=
      sub_pos.mpr hlt
    have heq : campaignScores df = (rawScores df).map (fun t =>
        (listMax (rawScores df) - t)
          / (listMax (rawScores df) - listMin (rawScores df)) * 100) := by
      rw [campaignScores_eq, hfar]
      simp
    refine ⟨heq, ?_, ?_⟩
    · have hmem : listMin (rawScores df) ∈ rawScores df := by
        rw [hR]; exact listMin_mem a l
      refine ⟨(listMin (rawScores df),
        (listMax (rawScores df) - listMin (rawScores df))
          / (listMax (rawScores df) - listMin (rawScores df)) * 100), ?_, rfl, ?_⟩
      · rw [heq]
        exact mem_zip_map _ _ _ hmem
      · rw [div_self (ne_of_gt hden)]
        norm_num
    · have hmem : listMax (rawScores df) ∈ rawScores df := by
        rw [hR]; exact listMax_mem a l
      refine ⟨(listMax (rawScores df),
        (listMax (rawScores df) - listMax (rawScores df))
          / (listMax (rawScores df) - listMin (rawScores df)) * 100), ?_, rfl, ?_⟩
      · rw [heq]
        exact mem_zip_map _ _ _ hmem
      · rw [sub_self]
        norm_num
  · intro s hs
    rw [campaignScores_eq] at hs
    by_cases hclose : npIsClose (listMax (rawScores df))
        (listMin (rawScores df)) = true
    · rw [hclose, if_pos rfl] at hs
      obtain ⟨t, _, rfl⟩ := List.mem_map.mp hs
      norm_num
    · have hfar : npIsClose (listMax (rawScores df))
          (listMin (rawScores df)) = false := by
        revert hclose
        cases npIsClose (listMax (rawScores df)) (listMin (rawScores df)) <;>
          simp
      have hlt : listMin (rawScores df) < listMax (rawScores df) :=
        listMin_lt_listMax_of_not_close _ hRne hfar
      have hden : (0 : ℚ) < listMax (rawScores df) - listMin (rawScores df) :=
        sub_pos.mpr hlt
      rw [hfar] at hs
      simp only [Bool.false_eq_true, if_false] at hs
      obtain ⟨t, htm, rfl⟩ := List.mem_map.mp hs
      have htmin : listMin (rawScores df) ≤ t := by
        rw [hR] at htm ⊢
        exact listMin_le a l t htm
      have htmax : t ≤ listMax (rawScores df) := by
        rw [hR] at htm ⊢
        exact listMax_ge a l t htm
      constructor
      · apply mul_nonneg _ (by norm_num : (0 : ℚ) ≤ 100)
        exact div_nonneg (sub_nonneg.mpr htmax) (le_of_lt hden)
      · have hq : (listMax (rawScores df) - t)
            / (listMax (rawScores df) - listMin (rawScores df)) ≤ 1 := by
          rw [div_le_one hden]
          exact sub_le_sub_left htmin _
        calc (listMax (rawScores df) - t)
              / (listMax (rawScores df) - listMin (rawScores df)) * 100
            ≤ 1 * 100 := by
              apply mul_le_mul_of_nonneg_right hq (by norm_num)
          _ = 100 := by norm_num

theorem c1_score_normalization_witness :
    (0 : ℚ) ≤ 100 ∧ (100 : ℚ) ≤ 100 :=
  (c1_score_normalization dfAB (by simp [dfAB])).2.2 100
    (by rw [campaignScores_dfAB]; exact List.mem_cons_self 100 [0])

/-- C5: each per-metric ranking is competition ranking with min
tie-breaking: rows with identical metric values share a rank; the rank of
the next distinct value after a tied block skips by the size of the block;
positive metrics (including ROI) rank the highest value 1 while CPL ranks
the lowest value 1; and missing values rank strictly below every present
value of their metric. -/
theorem c5_competition_ranking :
    (∀ (df : List Row) (m : Metric) (i j : ℕ),
      (column df m).getD i none = (column df m).getD j none →
      metricRankAt df m i = metricRankAt df m j)
    ∧ (∀ (df : List Row) (x : Option ℚ),
      metricRank df .cplM x = rankAsc (column df .cplM) x
      ∧ ∀ m ∈ positiveMetrics,
          metricRank df m x = rankDesc (column df m) x)
    ∧ (∀ (xs : List (Option ℚ)) (v w : ℚ), v < w →
      (∀ u : ℚ, some u ∈ xs → ¬(v < u ∧ u < w)) →
      rankAsc xs (some w)
        = rankAsc xs (some v) + xs.countP (fun y => decide (y = some v)))
    ∧ (∀ (xs : List (Option ℚ)) (v w : ℚ), w < v →
      (∀ u : ℚ, some u ∈ xs → ¬(w < u ∧ u < v)) →
      rankDesc xs (some w)
        = rankDesc xs (some v) + xs.countP (fun y => decide (y = some v)))
    ∧ (∀ (xs : List (Option ℚ)) (v : ℚ), some v ∈ xs →
      (∀ u : ℚ, some u ∈ xs → u ≤ v) → rankDesc xs (some v) = 1)
    ∧ (∀ (xs : List (Option ℚ)) (v : ℚ), some v ∈ xs →
      (∀ u : ℚ, some u ∈ xs → v ≤ u) → rankAsc xs (some v) = 1)
    ∧ (∀ (xs : List (Option ℚ)) (v : ℚ), some v ∈ xs →
      rankAsc xs (some v) < rankAsc xs none
      ∧ rankDesc xs (some v) < rankDesc xs none) := by
  refine ⟨?_, ?_, ?_, ?_, ?_, ?_, ?_⟩
  · intro df m i j h
    unfold metricRankAt
    rw [h]
  · intro df x
    constructor
    · simp [metricRank, positiveMetrics]
    · intro m hm
      simp [metricRank, hm]
  · intro xs v w hvw hno
    rw [rankAsc, rankAsc, countP_below_split v w hvw xs hno]
    omega
  · intro xs v w hwv hno
    rw [rankDesc, rankDesc, countP_above_split v w hwv xs hno]
    omega
  · intro xs v hmem hmax
    rw [rankDesc]
    have h0 : xs.countP (aboveB v) = 0 := by
      rw [List.countP_eq_zero]
      intro y hy
      cases y with
      | none => simp [aboveB]
      | some u =>
        simp [aboveB]
        exact hmax u hy
    rw [h0]
  · intro xs v hmem hmin
    rw [rankAsc]
    have h0 : xs.countP (belowB v) = 0 := by
      rw [List.countP_eq_zero]
      intro y hy
      cases y with
      | none => simp [belowB]
      | some u =>
        simp [belowB]
        exact hmin u hy
    rw [h0]
  · intro xs v hmem
    constructor
    · rw [rankAsc, rankAsc]
      have := countP_lt_of_witness (belowB v) (fun y => y.isSome) xs
        (some v) hmem ?_ rfl ?_
      · omega
      · intro y hy hp
        cases y with
        | none => simp [belowB] at hp
        | some u => rfl
      · simp [belowB]
    · rw [rankDesc, rankDesc]
      have := countP_lt_of_witness (aboveB v) (fun y => y.isSome) xs
        (some v) hmem ?_ rfl ?_
      · omega
      · intro y hy hp
        cases y with
        | none => simp [aboveB] at hp
        | some u => rfl
      · simp [aboveB]

theorem c5_competition_ranking_witness :
    rankAsc [some 1, some 1, some (2 : ℚ)] (some 2)
      = rankAsc [some 1, some 1, some (2 : ℚ)] (some 1)
        + List.countP (fun y => decide (y = some (1 : ℚ)))
            [some 1, some 1, some (2 : ℚ)] :=
  c5_competition_ranking.2.2.1 [some 1, some 1, some (2 : ℚ)] 1 2
    (by norm_num)
    (by
      intro u hu
      simp at hu
      rcases hu with h | h <;> rw [h] <;> norm_num)


/-- C7: whenever any required column is absent the pipeline stops with an
error listing the missing columns — the list contains every absent
required column, not only the first — and produces no output; an input
lacking exactly `Total Sales` yields the error naming exactly
`["Total Sales"]` for every dataset. -/
theorem c7_missing_columns :
    (∀ (cols : List String) (df : List Row) (c0 : String),
      c0 ∈ requiredCols → cols.contains c0 = false →
      analyzeUpload cols df = .error (missingCols cols)
      ∧ ∀ c ∈ requiredCols, cols.contains c = false → c ∈ missingCols cols)
    ∧ (∀ df : List Row,
      analyzeUpload ["Campaign", "Total Spend", "Total Leads",
        "Revenue (incl. GST)"] df = .error ["Total Sales"]) := by
  constructor
  · intro cols df c0 hc0 hnc
    have hmem : c0 ∈ missingCols cols := by
      rw [missingCols, List.mem_filter]
      refine ⟨hc0, by simpa using hnc⟩
    have hne : missingCols cols ≠ [] := by
      intro h
      rw [h] at hmem
      exact List.not_mem_nil c0 hmem
    constructor
    · rw [analyzeUpload, if_neg hne]
    · intro c hc hnc'
      rw [missingCols, List.mem_filter]
      refine ⟨hc, by simpa using hnc'⟩
  · intro df
    have h : missingCols ["Campaign", "Total Spend", "Total Leads",
        "Revenue (incl. GST)"] = ["Total Sales"] := by decide
    rw [analyzeUpload, h]
    simp

theorem c7_missing_columns_witness :
    analyzeUpload ["Campaign"] [] = .error (missingCols ["Campaign"])
    ∧ ("Total Sales") ∈ missingCols ["Campaign"] := by
  have h := c7_missing_columns.1 ["Campaign"] [] ("Total Sales")
    (by decide) (by decide)
  exact ⟨h.1, h.2 ("Total Sales") (by decide) (by decide)⟩

theorem rankSeries_getD (df : List Row) (m : Metric) (idx : ℕ)
    (h : idx < df.length) :
    (rankSeries df m).getD idx 0 = metricRankAt df m idx := by
  have hlen : idx < (column df m).length := by
    rw [column, List.length_map]
    exact h
  rw [rankSeries, metricRankAt, getD_map_rank _ _ _ hlen]

/-- C8: computing one rank sequence per metric over the whole column and
then combining per row with the weights yields exactly the per-campaign
weighted raw scores of the source's per-row loop, which recomputes the
full-column rank inside each iteration. -/
theorem c8_rank_precompute_refinement (df : List Row) :
    totalScoresLoop df = totalScoresPre df := by
  rw [totalScoresLoop, totalScoresPre]
  apply List.map_congr_left
  intro idx hidx
  have hidx' : idx < df.length := List.mem_range.mp hidx
  simp only [weights, List.map_cons, List.map_nil, List.foldl_cons,
    List.foldl_nil]
  rw [rankSeries_getD df .roiM idx hidx', rankSeries_getD df .revenueM idx hidx',
    rankSeries_getD df .cplM idx hidx', rankSeries_getD df .leadsM idx hidx']

theorem foldl_assign_fresh :
    ∀ (l input : List String), l.Nodup →
      (∀ c ∈ l, input.contains c = false) →
      l.foldl assignColumn input = input ++ l := by
  intro l
  induction l with
  | nil => intro input _ _; simp
  | cons a t ih =>
    intro input hnd hfresh
    rw [List.foldl_cons]
    have ha : assignColumn input a = input ++ [a] := by
      rw [assignColumn, hfresh a (List.mem_cons_self a t)]
      simp
    rw [ha, ih (input ++ [a]) (List.Nodup.of_cons hnd) ?_]
    · simp
    · intro c hc
      have h1 : input.contains c = false := hfresh c (List.mem_cons_of_mem a hc)
      have h2 : c ≠ a := by
        intro he
        subst he
        exact (List.nodup_cons.mp hnd).1 hc
      have h1' : c ∉ input := by simpa using h1
      simp [h1', h2]

/-- C10 counterexample: an input that itself carries a column named
`Campaign Score Raw` passes validation, but the pipeline overwrites that
column with the internal working values and then drops it, so this
original input column is absent from the exposed output — refuting "the
output contains all original input columns". -/
theorem c10_counterexample :
    ("Campaign Score Raw") ∈ requiredCols ++ ["Campaign Score Raw"]
    ∧ ("Campaign Score Raw") ∉
        pipelineColumns (requiredCols ++ ["Campaign Score Raw"]) := by
  constructor
  · decide
  · decide

/-- C10 amended: provided no input column reuses one of the assigned
names, the exposed output columns are exactly the input columns followed
by the eight derived columns P/L, CPL, CPA, ROAS, ROI, C-rate,
Rev. per lead, Campaign Score (0–100), and the internal working column
Campaign Score Raw is never exposed. -/
theorem c10_output_columns (input : List String)
    (h : ∀ c ∈ assignedOrder, input.contains c = false) :
    pipelineColumns input
      = input ++ derivedOrder ++ ["Campaign Score (0–100)"]
    ∧ ("Campaign Score Raw") ∉ pipelineColumns input := by
  have hnd : assignedOrder.Nodup := by decide
  have hfold := foldl_assign_fresh assignedOrder input hnd h
  have hnotin : ("Campaign Score Raw") ∉ input := by
    simpa using h ("Campaign Score Raw") (by decide)
  have herase : assignedOrder.erase ("Campaign Score Raw")
      = derivedOrder ++ ["Campaign Score (0–100)"] := by decide
  constructor
  · rw [pipelineColumns, hfold, List.erase_append_right _ hnotin, herase,
      List.append_assoc]
  · rw [pipelineColumns, hfold, List.erase_append_right _ hnotin, herase]
    rw [List.mem_append]
    rintro (hmem | hmem)
    · exact hnotin hmem
    · revert hmem
      decide

theorem c10_output_columns_witness :
    pipelineColumns requiredCols
      = requiredCols ++ derivedOrder ++ ["Campaign Score (0–100)"]
    ∧ ("Campaign Score Raw") ∉ pipelineColumns requiredCols :=
  c10_output_columns requiredCols (by decide)


theorem c8_rank_precompute_refinement_witness :
    totalScoresLoop dfAB = totalScoresPre dfAB :=
  c8_rank_precompute_refinement dfAB
